import Mathlib

/-!
Verification of the InvoicePDF backend (Express server in `Backend/src/index.js`):
a shallow embedding of the rate limiter, invoice job lifecycle, download route,
and server-sent-events hub, together with proofs of the specified properties.

Timestamps are modelled as natural numbers of milliseconds (JavaScript `Date`
values compare and subtract through their millisecond value).  Monetary amounts
are carried as integers: the backend never computes with them, it only stores
and renders them, so their numeric type is immaterial to every property here.
-/

namespace InvoicePDF

/-! ## Rate limiter (`checkRateLimit` middleware) -/

/-- One `RateLimit` document: `{ userId, count, resetTime }`.  The `userId` key
is kept outside, in the association list that models the collection. -/
structure RLCounter where
  count : Nat
  resetTime : Nat
deriving DecidableEq

/-- Outcome of the rate-limit middleware: `allow` means `next()` was called,
`deny r` means an HTTP 429 response carrying `r` seconds to wait. -/
inductive RLDecision where
  | allow : RLDecision
  | deny (retryAfterSeconds : Nat) : RLDecision
deriving DecidableEq

/-- Ceiling division, modelling `Math.ceil (a / b)` on natural numbers. -/
def ceilDiv (a b : Nat) : Nat := (a + b - 1) / b

/-- The `checkRateLimit` middleware.  Input: the user's stored `RateLimit`
document (`findOne` result) and the current time `now`.  Output: the decision
and the document written back by `save()` (`none` when the 429 path returns
before any save).  Mirrors the source: fetch-or-create the counter, reset it
when `now > resetTime` (strictly), deny with
`Math.ceil((resetTime - now) / 1000)` when `count >= 5`, otherwise increment
and persist. -/
def checkRateLimit (stored : Option RLCounter) (now : Nat) : RLDecision × Option RLCounter :=
  let c0 := stored.getD { count := 0, resetTime := now + 60000 }
  let c1 := if c0.resetTime < now then { count := 0, resetTime := now + 60000 } else c0
  if 5 ≤ c1.count then
    (RLDecision.deny (ceilDiv (c1.resetTime - now) 1000), none)
  else
    (RLDecision.allow, some { c1 with count := c1.count + 1 })

/-- Run a sequence of `checkRateLimit` calls for one user, threading the stored
document (an unsaved call leaves the store unchanged).  Returns the list of
decisions and the final stored document. -/
def runCalls : Option RLCounter → List Nat → List RLDecision × Option RLCounter
  | stored, [] => ([], stored)
  | stored, t :: ts =>
    let step := checkRateLimit stored t
    let stored' := match step.2 with
      | some c => some c
      | none => stored
    let rest := runCalls stored' ts
    (step.1 :: rest.1, rest.2)


/-! ## Invoice jobs (the `Invoice` schema and its lifecycle) -/

/-- The `status` enum of the invoice schema: `['processing', 'ready', 'failed']`. -/
inductive JobStatus where
  | processing : JobStatus
  | ready : JobStatus
  | failed : JobStatus
deriving DecidableEq

/-- One element of the `lineItems` array. -/
structure LineItem where
  description : String
  quantity : Int
  rate : Int
  amount : Int
deriving DecidableEq

/-- The request body of `POST /api/invoices`: the invoice content copied
verbatim into the new document. -/
structure InvoicePayload where
  clientName : String
  clientEmail : String
  invoiceNumber : String
  issueDate : Nat
  dueDate : Nat
  lineItems : List LineItem
  subtotal : Int
  tax : Int
  total : Int
deriving DecidableEq

/-- An `Invoice` document.  `id` models Mongo's `_id`, `userId` the owner,
`pdfPath` the optional artifact reference (absent until set). -/
structure Job where
  id : Nat
  userId : Nat
  clientName : String
  clientEmail : String
  invoiceNumber : String
  issueDate : Nat
  dueDate : Nat
  lineItems : List LineItem
  subtotal : Int
  tax : Int
  total : Int
  status : JobStatus
  pdfPath : Option String
  createdAt : Nat
deriving DecidableEq

/-- The document built by the `POST /api/invoices` handler:
`new Invoice({ userId: req.user.userId, ..., status: 'processing' })`.
`pdfPath` is not set at creation. -/
def createInvoice (id userId : Nat) (p : InvoicePayload) (now : Nat) : Job :=
  { id := id
    userId := userId
    clientName := p.clientName
    clientEmail := p.clientEmail
    invoiceNumber := p.invoiceNumber
    issueDate := p.issueDate
    dueDate := p.dueDate
    lineItems := p.lineItems
    subtotal := p.subtotal
    tax := p.tax
    total := p.total
    status := JobStatus.processing
    pdfPath := none
    createdAt := now }

/-- The success completion at the end of `generatePDF`:
`invoice.pdfPath = filename; invoice.status = 'ready'; await invoice.save()`.
The assignment is unconditional: the source has no check of the current
status. -/
def markReady (j : Job) (artifactRef : String) : Job :=
  { j with pdfPath := some artifactRef, status := JobStatus.ready }

/-- The failure completion in the `setTimeout` callback's `catch` block:
`invoice.status = 'failed'; await invoice.save()`.  Also unconditional, and it
leaves `pdfPath` untouched. -/
def markFailed (j : Job) : Job :=
  { j with status := JobStatus.failed }

/-- An event pushed over the SSE channel. -/
structure SSEEventData where
  type : String
  invoiceId : Nat
  status : String
deriving DecidableEq

/-- The body of `generatePDF(invoice)`.  It can throw at two distinct points:

* while rendering or writing the file (`pdf(...)`, `fs.writeFileSync`, and the
  fallback stream), which all happen BEFORE the invoice object is touched —
  modelled by `renderFails`; or
* at its final `await invoice.save()`, which runs AFTER
  `invoice.pdfPath = filename; invoice.status = 'ready'` have mutated the
  shared in-memory document — modelled by `finalSaveFails`.

The result is `(thrown, mem)`: whether `generatePDF` threw, and the in-memory
invoice object as the caller now sees it.  When it did not throw, `mem` is
also what `save()` persisted; when it threw, nothing was persisted by
`generatePDF`, but on the late-save failure `mem` already carries the
`ready`/`pdfPath` mutation.  The filename is `invoice-${invoice._id}.pdf`. -/
def generatePDF (j : Job) (renderFails finalSaveFails : Bool) : Bool × Job :=
  if renderFails then (true, j)
  else (finalSaveFails, markReady j ("invoice-" ++ toString j.id ++ ".pdf"))

/-- The background job runner: the `setTimeout` callback around
`generatePDF`.  On a normal return the persisted job is the ready one and an
`invoice_ready` event is published; when `generatePDF` throws, the `catch`
block sets `status = 'failed'` on the in-memory invoice AS `generatePDF` LEFT
IT and saves, then publishes `invoice_failed`.  Returns the job state the
database holds afterwards and the published event. -/
def runJob (j : Job) (renderFails finalSaveFails : Bool) : Job × SSEEventData :=
  let gen := generatePDF j renderFails finalSaveFails
  if gen.1 then
    (markFailed gen.2,
     { type := "invoice_failed", invoiceId := j.id, status := "failed" })
  else
    (gen.2,
     { type := "invoice_ready", invoiceId := j.id, status := "ready" })

/-! ## Download route (`GET /api/invoices/:id/download`) -/

/-- The response of the download route. `notFound` is the 404
`'Invoice not found'`, `notReady` the 400 `'PDF not ready for download'`,
`fileMissing` the 404 `'PDF file not found'`, and `ok` streams the file. -/
inductive DownloadResult where
  | notFound : DownloadResult
  | notReady : DownloadResult
  | fileMissing : DownloadResult
  | ok (path : String) (filename : String) : DownloadResult
deriving DecidableEq

/-- Lookup `Invoice.findOne({ _id: req.params.id, userId: req.user.userId })`: the
first stored invoice matching both the id and the requesting owner. -/
def findInvoice (jobs : List Job) (id userId : Nat) : Option Job :=
  jobs.find? (fun j => j.id == id && j.userId == userId)

/-- The download handler.  `fileExists` models `fs.existsSync` on the resolved
path `path.join(__dirname, 'pdfs', invoice.pdfPath)`.  The guard
`invoice.status !== 'ready' || !invoice.pdfPath` is rendered as the match on
the pair: anything other than a ready invoice with a set `pdfPath` gets the
400. -/
def downloadInvoice (jobs : List Job) (fileExists : String → Bool) (id userId : Nat) :
    DownloadResult :=
  match findInvoice jobs id userId with
  | none => DownloadResult.notFound
  | some inv =>
    match inv.status, inv.pdfPath with
    | JobStatus.ready, some p =>
        if fileExists ("pdfs/" ++ p) then
          DownloadResult.ok ("pdfs/" ++ p) inv.invoiceNumber
        else DownloadResult.fileMissing
    | _, _ => DownloadResult.notReady

/-! ## SSE hub (`sseClients` map and `sendSSEUpdate`) -/

/-- A registered SSE response handle.  `writeFails` models whether
`client.write` throws for this connection. -/
structure SSEClient where
  clientId : Nat
  writeFails : Bool
deriving DecidableEq

/-- Map read `sseClients.get(key)` on the map modelled as an association list. -/
def sseGet (reg : List (String × SSEClient)) (key : String) : Option SSEClient :=
  (reg.find? (fun e => e.1 == key)).map (fun e => e.2)

/-- Map removal `sseClients.delete(key)`. -/
def sseDelete (reg : List (String × SSEClient)) (key : String) : List (String × SSEClient) :=
  reg.filter (fun e => !(e.1 == key))

/-- Publishing, `sendSSEUpdate(userId, data)`: look the user up in `sseClients`; when no
client is registered nothing at all happens; when one is, attempt a single
write, and on a write error delete the registration.  Returns the registry
after the call and the list of deliveries that reached a client. -/
def sendSSEUpdate (reg : List (String × SSEClient)) (userId : String) (data : SSEEventData) :
    List (String × SSEClient) × List (Nat × SSEEventData) :=
  match sseGet reg userId with
  | none => (reg, [])
  | some c =>
      if c.writeFails then (sseDelete reg userId, [])
      else (reg, [(c.clientId, data)])

/-! ## `POST /api/invoices`: middleware chain plus handler -/

/-- Lookup `RateLimit.findOne({ userId })` on the collection modelled as an
association list keyed by user id. -/
def getRateLimit (db : List (Nat × RLCounter)) (userId : Nat) : Option RLCounter :=
  (db.find? (fun e => e.1 == userId)).map (fun e => e.2)

/-- Persisting, `userRateLimit.save()`: write the user's (single) document back. -/
def saveRateLimit (db : List (Nat × RLCounter)) (userId : Nat) (c : RLCounter) :
    List (Nat × RLCounter) :=
  (db.filter (fun e => !(e.1 == userId))) ++ [(userId, c)]

/-- The persistent state the `POST /api/invoices` route touches: the
`RateLimit` collection and the `Invoice` collection. -/
structure ServerState where
  rateLimits : List (Nat × RLCounter)
  invoices : List Job
deriving DecidableEq

/-- Response of `POST /api/invoices`: 201 with the created document, 429 from
the rate-limit middleware, or 500 when `invoice.save()` throws. -/
inductive PostResult where
  | created (j : Job) : PostResult
  | rateLimited (retryAfterSeconds : Nat) : PostResult
  | serverError : PostResult
deriving DecidableEq

/-- The route `app.post('/api/invoices', authenticateToken, checkRateLimit,
handler)` for an authenticated user.  The middleware either responds 429 —
before any save, leaving both collections untouched — or persists the
incremented counter and calls `next()`; the handler then builds the document
and calls `invoice.save()`, whose failure (`saveFails`) is answered with a 500
after the rate-limit slot has already been consumed. -/
def postInvoice (st : ServerState) (userId now : Nat) (p : InvoicePayload) (nextId : Nat)
    (saveFails : Bool) : PostResult × ServerState :=
  match checkRateLimit (getRateLimit st.rateLimits userId) now with
  | (RLDecision.deny r, _) => (PostResult.rateLimited r, st)
  | (RLDecision.allow, saved) =>
      let rl' := match saved with
        | some c => saveRateLimit st.rateLimits userId c
        | none => st.rateLimits
      if saveFails then
        (PostResult.serverError, { rateLimits := rl', invoices := st.invoices })
      else
        let j := createInvoice nextId userId p now
        (PostResult.created j, { rateLimits := rl', invoices := st.invoices ++ [j] })

/-- Run a sequence of `POST /api/invoices` requests for one user; each request
is a pair of its arrival time and whether its `invoice.save()` fails. -/
def runPosts (st : ServerState) (userId : Nat) (p : InvoicePayload) :
    Nat → List (Nat × Bool) → List PostResult × ServerState
  | _, [] => ([], st)
  | nextId, (now, sf) :: rest =>
      let step := postInvoice st userId now p nextId sf
      let r := runPosts step.2 userId p (nextId + 1) rest
      (step.1 :: r.1, r.2)

/-- A request that got past the rate limiter (created a job or died in the
handler), as opposed to one the limiter rejected. -/
def isAdmitted : PostResult → Bool
  | PostResult.rateLimited _ => false
  | _ => true

/-- A request that actually created a job. -/
def isCreated : PostResult → Bool
  | PostResult.created _ => true
  | _ => false

/-! ## Lemmas about the rate limiter -/

/-- A positive gap to the window boundary yields a positive
`Math.ceil((resetTime - now) / 1000)`. -/
theorem ceilDiv_thousand_pos {a : Nat} (ha : 0 < a) : 0 < ceilDiv a 1000 := by
  unfold ceilDiv
  have h : 1 * 1000 ≤ a + 1000 - 1 := by omega
  exact (Nat.le_div_iff_mul_le (by omega)).mpr h

/-- Behaviour of a run of calls inside one window: starting from a stored
counter `⟨c, R⟩` with `c ≤ 5` and all call times at or before the boundary
`R`, no reset ever fires, the first `5 - c` calls are allowed, every later
call is denied with the ceiling of the remaining window time, and the stored
counter ends at `min (c + length) 5` with the boundary unchanged. -/
theorem runCalls_window (ts : List Nat) :
    ∀ c R : Nat, c ≤ 5 → (∀ t ∈ ts, t ≤ R) →
      runCalls (some ⟨c, R⟩) ts =
        (List.replicate (min (5 - c) ts.length) RLDecision.allow ++
           (ts.drop (5 - c)).map (fun t => RLDecision.deny (ceilDiv (R - t) 1000)),
         some ⟨min (c + ts.length) 5, R⟩) := by
  induction ts with
  | nil =>
      intro c R hc _
      simp [runCalls, Nat.min_eq_left hc]
  | cons t ts ih =>
      intro c R hc hts
      have ht : t ≤ R := hts t (by simp)
      have hts' : ∀ u ∈ ts, u ≤ R := fun u hu => hts u (by simp [hu])
      by_cases h5 : 5 ≤ c
      · -- counter full: deny, store untouched
        have hc5 : c = 5 := le_antisymm hc h5
        subst hc5
        have hstep : checkRateLimit (some ⟨5, R⟩) t =
            (RLDecision.deny (ceilDiv (R - t) 1000), none) := by
          simp [checkRateLimit, Nat.not_lt.mpr ht]
        simp only [runCalls, hstep]
        rw [ih 5 R (le_refl 5) hts']
        simp
      · -- a slot remains: allow, increment
        have hlt : c < 5 := Nat.lt_of_not_le h5
        have hstep : checkRateLimit (some ⟨c, R⟩) t =
            (RLDecision.allow, some ⟨c + 1, R⟩) := by
          simp [checkRateLimit, Nat.not_lt.mpr ht, Nat.not_le.mpr hlt]
        simp only [runCalls, hstep]
        rw [ih (c + 1) R hlt hts']
        refine Prod.ext ?_ ?_
        · show RLDecision.allow :: _ = _
          have hsub : 5 - c = (5 - (c + 1)) + 1 := by omega
          rw [hsub]
          rw [List.drop_succ_cons]
          rw [List.length_cons, Nat.succ_min_succ, List.replicate_succ, List.cons_append]
        · show some _ = some _
          have : c + 1 + ts.length = c + (ts.length + 1) := by omega
          rw [this]
          rfl

/-- The very first call of a fresh user creates the counter, opens a window
ending 60 seconds later, and is allowed. -/
theorem checkRateLimit_fresh (t0 : Nat) :
    checkRateLimit none t0 = (RLDecision.allow, some ⟨1, t0 + 60000⟩) := by
  have h1 : ¬ (t0 + 60000 < t0) := by omega
  simp [checkRateLimit, h1]

/-- C1.  For every sequence of `checkRateLimit` calls of one user whose times
all fall strictly inside the 60-second window opened by the first call, the
decisions are exactly: `allow` for the first `min n 5` calls, and from the 6th
call on `deny` carrying `ceil((windowResetAt - now) / 1s)`; moreover every
decision from the 6th call on is a `deny` with a strictly positive
`retryAfterSeconds`. -/
theorem rate_limit_at_most_five_per_window (t0 : Nat) (ts : List Nat)
    (hts : ∀ t ∈ ts, t < t0 + 60000) :
    (runCalls none (t0 :: ts)).1 =
      List.replicate (min (ts.length + 1) 5) RLDecision.allow ++
        ((t0 :: ts).drop 5).map
          (fun t => RLDecision.deny (ceilDiv (t0 + 60000 - t) 1000)) ∧
    ∀ d ∈ ((runCalls none (t0 :: ts)).1).drop 5,
      ∃ r, d = RLDecision.deny r ∧ 0 < r := by
  have hle : ∀ u ∈ ts, u ≤ t0 + 60000 := fun u hu => le_of_lt (hts u hu)
  have hrun : runCalls none (t0 :: ts) =
      (RLDecision.allow ::
        (List.replicate (min 4 ts.length) RLDecision.allow ++
          (ts.drop 4).map (fun t => RLDecision.deny (ceilDiv (t0 + 60000 - t) 1000))),
       some ⟨min (1 + ts.length) 5, t0 + 60000⟩) := by
    simp only [runCalls, checkRateLimit_fresh]
    rw [runCalls_window ts 1 (t0 + 60000) (by omega) hle]
  have hmain : (runCalls none (t0 :: ts)).1 =
      List.replicate (min (ts.length + 1) 5) RLDecision.allow ++
        ((t0 :: ts).drop 5).map
          (fun t => RLDecision.deny (ceilDiv (t0 + 60000 - t) 1000)) := by
    rw [hrun]
    show RLDecision.allow :: _ = _
    have hmin : min (ts.length + 1) 5 = min ts.length 4 + 1 := by omega
    rw [hmin, List.replicate_succ, List.cons_append, Nat.min_comm ts.length 4]
    rfl
  refine ⟨hmain, ?_⟩
  intro d hd
  rw [hmain] at hd
  by_cases hlen : ts.length + 1 ≤ 5
  · -- at most five calls in total: nothing remains after dropping five
    exfalso
    have hnil : (List.replicate (min (ts.length + 1) 5) RLDecision.allow ++
        ((t0 :: ts).drop 5).map
          (fun t => RLDecision.deny (ceilDiv (t0 + 60000 - t) 1000))).drop 5 = [] := by
      apply List.drop_eq_nil_of_le
      have hd5 : (t0 :: ts).drop 5 = [] :=
        List.drop_eq_nil_of_le (by simpa using hlen)
      rw [hd5]
      simp
    rw [hnil] at hd
    exact (List.not_mem_nil d) hd
  · -- more than five calls: what remains is exactly the mapped deny tail
    have hmin5 : min (ts.length + 1) 5 = 5 := by omega
    rw [hmin5] at hd
    have hdrop : (List.replicate 5 RLDecision.allow ++
        ((t0 :: ts).drop 5).map
          (fun t => RLDecision.deny (ceilDiv (t0 + 60000 - t) 1000))).drop 5 =
        ((t0 :: ts).drop 5).map
          (fun t => RLDecision.deny (ceilDiv (t0 + 60000 - t) 1000)) :=
      List.drop_left' (List.length_replicate 5 RLDecision.allow)
    rw [hdrop] at hd
    rcases List.mem_map.mp hd with ⟨t, htmem, hteq⟩
    have htts : t ∈ ts := by
      have : t ∈ ts.drop 4 := by simpa using htmem
      exact List.mem_of_mem_drop this
    refine ⟨ceilDiv (t0 + 60000 - t) 1000, hteq.symm, ?_⟩
    exact ceilDiv_thousand_pos (by have := hts t htts; omega)

/-! ## Concrete sample data used by the closed witness statements -/

/-- A sample request body (scenario 1 of the spec). -/
def samplePayload : InvoicePayload :=
  { clientName := "Acme"
    clientEmail := "billing@acme.test"
    invoiceNumber := "INV-001"
    issueDate := 0
    dueDate := 86400000
    lineItems := [{ description := "Widget", quantity := 2, rate := 10, amount := 20 }]
    subtotal := 20
    tax := 2
    total := 22 }

/-- A freshly created sample job, owned by user 1. -/
def sampleJob : Job := createInvoice 1 1 samplePayload 0

/-- The sample job after its runner succeeded. -/
def readyJob : Job := markReady sampleJob "invoice-1.pdf"

/-- A sample SSE event. -/
def sampleEvent : SSEEventData :=
  { type := "invoice_ready", invoiceId := 1, status := "ready" }

/-! ## C5: window reset happens strictly after the boundary -/

/-- C5 counterexample.  At the boundary instant `now = windowResetAt` with a
full counter, the call is NOT reset: it is denied (with `retryAfterSeconds`
0), nothing is saved, and in particular it is not allowed as the claim's
reset-then-admit behaviour would require. -/
theorem boundary_call_not_reset :
    checkRateLimit (some ⟨5, 1000⟩) 1000 = (RLDecision.deny 0, none) ∧
    (checkRateLimit (some ⟨5, 1000⟩) 1000).1 ≠ RLDecision.allow := by
  refine ⟨by decide, by decide⟩

/-- C5 amended.  The counter is reset only when `now` is strictly past
`windowResetAt`: such a call resets the window, is allowed, and persists
`⟨count 1, windowResetAt now+60s⟩`; within the fresh window up to 4 further
calls are admitted (5 in total, counting the resetting call) and later ones
are denied. -/
theorem reset_strictly_after_boundary (c : RLCounter) (now : Nat)
    (h : c.resetTime < now) (ts : List Nat) (hts : ∀ t ∈ ts, t ≤ now + 60000) :
    checkRateLimit (some c) now = (RLDecision.allow, some ⟨1, now + 60000⟩) ∧
    (runCalls (some ⟨1, now + 60000⟩) ts).1 =
      List.replicate (min 4 ts.length) RLDecision.allow ++
        (ts.drop 4).map (fun t => RLDecision.deny (ceilDiv (now + 60000 - t) 1000)) := by
  constructor
  · simp [checkRateLimit, h]
  · have := runCalls_window ts 1 (now + 60000) (by omega) hts
    exact congrArg Prod.fst this

/-- Witness for the amended C5 at a concrete expired counter. -/
theorem reset_strictly_after_boundary_witness :
    checkRateLimit (some ⟨5, 1000⟩) 1001 = (RLDecision.allow, some ⟨1, 61001⟩) ∧
    (runCalls (some ⟨1, 61001⟩) [2000, 3000, 4000, 5000, 6000]).1 =
      List.replicate (min 4 [2000, 3000, 4000, 5000, 6000].length) RLDecision.allow ++
        ([2000, 3000, 4000, 5000, 6000].drop 4).map
          (fun t => RLDecision.deny (ceilDiv (1001 + 60000 - t) 1000)) :=
  reset_strictly_after_boundary ⟨5, 1000⟩ 1001 (by decide)
    [2000, 3000, 4000, 5000, 6000] (by decide)

/-- Witness for C1 at the concrete scenario of seven calls inside one window:
five allows followed by two positive denials. -/
theorem rate_limit_at_most_five_per_window_witness :
    (runCalls none (0 :: [1, 2, 3, 4, 5, 6])).1 =
      List.replicate (min ([1, 2, 3, 4, 5, 6].length + 1) 5) RLDecision.allow ++
        ((0 :: [1, 2, 3, 4, 5, 6]).drop 5).map
          (fun t => RLDecision.deny (ceilDiv (0 + 60000 - t) 1000)) ∧
    ∀ d ∈ ((runCalls none (0 :: [1, 2, 3, 4, 5, 6])).1).drop 5,
      ∃ r, d = RLDecision.deny r ∧ 0 < r :=
  rate_limit_at_most_five_per_window 0 [1, 2, 3, 4, 5, 6] (by decide)

/-! ## C2: completion signals are not guarded by the current status -/

/-- C2 counterexample.  A job already completed by `markReady` is changed by a
later `markFailed`: the duplicate completion signal overwrites the terminal
state instead of being an idempotent no-op. -/
theorem duplicate_completion_overwrites :
    markFailed (markReady sampleJob "invoice-1.pdf") ≠
      markReady sampleJob "invoice-1.pdf" ∧
    (markFailed (markReady sampleJob "invoice-1.pdf")).status = JobStatus.failed := by
  constructor
  · intro h
    have h2 := congrArg Job.status h
    simp [markFailed, markReady] at h2
  · rfl

/-- C2 amended.  `markReady` and `markFailed` assign the status
unconditionally, with no processing-only guard.  Each operation by itself is
idempotent — repeating it leaves the job in the state set by the first call —
but a completion signal of the other kind does overwrite a terminal state:
`markFailed` after `markReady` leaves the job `failed` (with the artifact
reference still set), and `markReady` after `markFailed` leaves it `ready`. -/
theorem completion_signals_unconditional (j : Job) (ref : String) :
    markReady (markReady j ref) ref = markReady j ref ∧
    markFailed (markFailed j) = markFailed j ∧
    (markFailed (markReady j ref)).status = JobStatus.failed ∧
    (markFailed (markReady j ref)).pdfPath = some ref ∧
    (markReady (markFailed j) ref).status = JobStatus.ready :=
  ⟨rfl, rfl, rfl, rfl, rfl⟩

/-! ## C3: the artifact reference is present exactly on the ready status -/

/-- C3 counterexample.  When `generatePDF`'s final `invoice.save()` throws —
after `pdfPath` and `status = 'ready'` were assigned to the shared in-memory
invoice — the `catch` block sets `status = 'failed'` on that already-mutated
object and persists it: the database then holds a `failed` job whose
`pdfPath` IS set, so the claimed equivalence between a present artifact
reference and the `ready` status is false at this concrete input. -/
theorem failed_job_with_artifact_counterexample :
    (runJob sampleJob false true).1.status = JobStatus.failed ∧
    (runJob sampleJob false true).1.pdfPath = some "invoice-1.pdf" ∧
    ¬ ((runJob sampleJob false true).1.pdfPath.isSome ↔
        (runJob sampleJob false true).1.status = JobStatus.ready) := by
  refine ⟨rfl, rfl, ?_⟩
  intro h
  have h2 := h.mp (by rfl)
  simp [runJob, generatePDF, markReady, markFailed, sampleJob] at h2

/-- C3 amended.  `pdfPath` is present exactly when the status is `ready` at
creation, after the runner's success path, and after a failure that occurs
before `generatePDF` assigns the artifact (rendering or file writing, with
either outcome of the later save) — on those paths a failed job has no
artifact reference.  The single exception is the path where `generatePDF`'s
own final `invoice.save()` throws: the `catch` block then persists the job as
`failed` with `pdfPath` still set to the artifact filename. -/
theorem artifactRef_iff_ready_except_late_save (id userId : Nat) (p : InvoicePayload)
    (now : Nat) (fsf : Bool) :
    ((createInvoice id userId p now).pdfPath.isSome ↔
      (createInvoice id userId p now).status = JobStatus.ready) ∧
    ((runJob (createInvoice id userId p now) false false).1.pdfPath.isSome ↔
      (runJob (createInvoice id userId p now) false false).1.status = JobStatus.ready) ∧
    ((runJob (createInvoice id userId p now) true fsf).1.status = JobStatus.failed ∧
      (runJob (createInvoice id userId p now) true fsf).1.pdfPath = none) ∧
    ((runJob (createInvoice id userId p now) false true).1.status = JobStatus.failed ∧
      (runJob (createInvoice id userId p now) false true).1.pdfPath =
        some ("invoice-" ++ toString id ++ ".pdf")) := by
  refine ⟨?_, ?_, ⟨?_, ?_⟩, ⟨?_, ?_⟩⟩ <;>
    simp [runJob, generatePDF, createInvoice, markReady, markFailed]

/-- Witness for the amended C3 on the concrete sample payload. -/
theorem artifactRef_iff_ready_except_late_save_witness :
    ((createInvoice 1 1 samplePayload 0).pdfPath.isSome ↔
      (createInvoice 1 1 samplePayload 0).status = JobStatus.ready) ∧
    ((runJob (createInvoice 1 1 samplePayload 0) false false).1.pdfPath.isSome ↔
      (runJob (createInvoice 1 1 samplePayload 0) false false).1.status =
        JobStatus.ready) ∧
    ((runJob (createInvoice 1 1 samplePayload 0) true false).1.status = JobStatus.failed ∧
      (runJob (createInvoice 1 1 samplePayload 0) true false).1.pdfPath = none) ∧
    ((runJob (createInvoice 1 1 samplePayload 0) false true).1.status = JobStatus.failed ∧
      (runJob (createInvoice 1 1 samplePayload 0) false true).1.pdfPath =
        some ("invoice-" ++ toString 1 ++ ".pdf")) :=
  artifactRef_iff_ready_except_late_save 1 1 samplePayload 0 false

/-! ## C4: lookup does not leak other users' jobs -/

/-- C4.  The download route's lookup answers the same `notFound` (404
`'Invoice not found'`) both when no stored invoice carries the requested id
and when an invoice with that id exists but belongs to a different owner; the
`notFound` response carries no payload, so the two cases are indistinguishable
to the caller. -/
theorem lookup_owner_isolation (jobs : List Job) (fe : String → Bool) (id userId : Nat) :
    ((∀ j ∈ jobs, j.id ≠ id) →
      downloadInvoice jobs fe id userId = DownloadResult.notFound) ∧
    ((∀ j ∈ jobs, j.id = id → j.userId ≠ userId) →
      downloadInvoice jobs fe id userId = DownloadResult.notFound) := by
  have key : ∀ (h : ∀ j ∈ jobs, j.id = id → j.userId ≠ userId),
      downloadInvoice jobs fe id userId = DownloadResult.notFound := by
    intro h
    have hfind : findInvoice jobs id userId = none := by
      apply List.find?_eq_none.mpr
      intro j hj hmatch
      rw [Bool.and_eq_true, beq_iff_eq, beq_iff_eq] at hmatch
      exact h j hj hmatch.1 hmatch.2
    simp [downloadInvoice, hfind]
  exact ⟨fun h => key (fun j hj hid => absurd hid (h j hj)), key⟩

/-- Witness for C4: user 1 looking up a nonexistent id and user 1 looking up
user 2's job get the same `notFound`. -/
theorem lookup_owner_isolation_witness :
    downloadInvoice [] (fun _ => true) 7 1 = DownloadResult.notFound ∧
    downloadInvoice [createInvoice 7 2 samplePayload 0] (fun _ => true) 7 1 =
      DownloadResult.notFound :=
  ⟨(lookup_owner_isolation [] (fun _ => true) 7 1).1 (by decide),
   (lookup_owner_isolation [createInvoice 7 2 samplePayload 0] (fun _ => true) 7 1).2
     (by decide)⟩

/-! ## C7: publishing without a subscriber is a no-op -/

/-- C7.  `sendSSEUpdate` to a user with no registered handle leaves the
registry exactly as it was and delivers nothing (it returns normally — the
model is a total function — with no queueing); and in every case at most one
delivery is made, to the single registered handle. -/
theorem publish_without_subscriber_noop (reg : List (String × SSEClient)) (userId : String)
    (data : SSEEventData) :
    (sseGet reg userId = none → sendSSEUpdate reg userId data = (reg, [])) ∧
    (sendSSEUpdate reg userId data).2.length ≤ 1 := by
  constructor
  · intro h
    simp [sendSSEUpdate, h]
  · unfold sendSSEUpdate
    cases h : sseGet reg userId with
    | none => simp
    | some c => by_cases hw : c.writeFails <;> simp [hw]

/-- Witness for C7 on the empty registry. -/
theorem publish_without_subscriber_noop_witness :
    sendSSEUpdate [] "1" sampleEvent = ([], []) ∧
    (sendSSEUpdate [] "1" sampleEvent).2.length ≤ 1 :=
  ⟨(publish_without_subscriber_noop [] "1" sampleEvent).1 rfl,
   (publish_without_subscriber_noop [] "1" sampleEvent).2⟩

/-! ## C9: a ready job's download can still 404 on a missing file -/

/-- C9.  Even when the lookup succeeds, the job's status is `ready` and its
`pdfPath` is set, the download answers the 404 `'PDF file not found'` whenever
the referenced file is absent from storage — so `status = ready` does not
guarantee a successful download. -/
theorem ready_job_download_file_missing (jobs : List Job) (fe : String → Bool)
    (id userId : Nat) (j : Job) (p : String)
    (hfind : findInvoice jobs id userId = some j)
    (hstatus : j.status = JobStatus.ready)
    (hpath : j.pdfPath = some p)
    (hfe : fe ("pdfs/" ++ p) = false) :
    downloadInvoice jobs fe id userId = DownloadResult.fileMissing := by
  unfold downloadInvoice
  rw [hfind]
  simp [hstatus, hpath, hfe]

/-- Witness for C9: a ready job whose file is gone from disk. -/
theorem ready_job_download_file_missing_witness :
    (readyJob.status = JobStatus.ready ∧ readyJob.pdfPath = some "invoice-1.pdf") ∧
    downloadInvoice [readyJob] (fun _ => false) 1 1 = DownloadResult.fileMissing :=
  ⟨⟨rfl, rfl⟩,
   ready_job_download_file_missing [readyJob] (fun _ => false) 1 1 readyJob
     "invoice-1.pdf" (by decide) rfl rfl rfl⟩

/-! ## C6: a denied request mutates nothing -/

/-- C6.  When the rate-limit middleware answers 429, the whole persistent
state is untouched: the user's counter was not saved and no invoice document
was created. -/
theorem deny_no_mutation (st : ServerState) (userId now : Nat) (p : InvoicePayload)
    (nextId : Nat) (saveFails : Bool) (r : Nat)
    (h : (postInvoice st userId now p nextId saveFails).1 = PostResult.rateLimited r) :
    (postInvoice st userId now p nextId saveFails).2 = st := by
  obtain ⟨⟨d, saved⟩, hcr⟩ :
      ∃ pr, checkRateLimit (getRateLimit st.rateLimits userId) now = pr := ⟨_, rfl⟩
  cases d with
  | allow =>
      exfalso
      simp only [postInvoice, hcr] at h
      cases saveFails <;> simp at h
  | deny rr =>
      simp only [postInvoice, hcr]

/-- Witness for C6: user 1's counter is full, the request is denied with 30
seconds to wait and the state is returned unchanged. -/
theorem deny_no_mutation_witness :
    (postInvoice ⟨[(1, ⟨5, 60000⟩)], []⟩ 1 30000 samplePayload 7 false).1 =
      PostResult.rateLimited 30 ∧
    (postInvoice ⟨[(1, ⟨5, 60000⟩)], []⟩ 1 30000 samplePayload 7 false).2 =
      ⟨[(1, ⟨5, 60000⟩)], []⟩ :=
  ⟨by decide,
   deny_no_mutation ⟨[(1, ⟨5, 60000⟩)], []⟩ 1 30000 samplePayload 7 false 30 (by decide)⟩

/-! ## C8: the increment is read-then-write and double-admits under a race -/

/-- Apply one pending `save()` to the stored document: a call that saved
nothing leaves the store as it was. -/
def applySave (db saved : Option RLCounter) : Option RLCounter :=
  match saved with
  | some c => some c
  | none => db

/-- Sequential composition of a call through `applySave` is exactly one
`runCalls` step: the two-phase read/write model agrees with the sequential
semantics. -/
theorem applySave_sequential (stored : Option RLCounter) (t : Nat) (ts : List Nat) :
    runCalls stored (t :: ts) =
      ((checkRateLimit stored t).1 ::
        (runCalls (applySave stored (checkRateLimit stored t).2) ts).1,
       (runCalls (applySave stored (checkRateLimit stored t).2) ts).2) := by
  obtain ⟨⟨d, saved⟩, hcr⟩ : ∃ pr, checkRateLimit stored t = pr := ⟨_, rfl⟩
  cases saved <;> simp [runCalls, hcr, applySave]

/-- C8 fails on the code.  `checkRateLimit` reads the counter with `findOne`
and writes it back with `save()`; with one slot remaining (`count = 4`), two
requests that both read before either writes are BOTH admitted, and the store
afterwards records `count = 5` — a lost update.  Had the second request run
after the first one's save (the sequential order), it would have been denied.
The persistence layer's atomic update primitive is not used. -/
theorem rate_limit_double_admit_race :
    (checkRateLimit (some ⟨4, 60000⟩) 30000).1 = RLDecision.allow ∧
    (checkRateLimit (some ⟨4, 60000⟩) 30001).1 = RLDecision.allow ∧
    applySave (applySave (some ⟨4, 60000⟩) (checkRateLimit (some ⟨4, 60000⟩) 30000).2)
        (checkRateLimit (some ⟨4, 60000⟩) 30001).2 = some ⟨5, 60000⟩ ∧
    (checkRateLimit
        (applySave (some ⟨4, 60000⟩) (checkRateLimit (some ⟨4, 60000⟩) 30000).2)
        30001).1 = RLDecision.deny 30 := by
  decide

/-! ## C10: an admitted request consumes its slot even when creation fails -/

/-- An allowed call always persists a counter with a strictly positive count:
the slot is consumed by the middleware itself. -/
theorem checkRateLimit_allow_saves (stored : Option RLCounter) (now : Nat)
    (h : (checkRateLimit stored now).1 = RLDecision.allow) :
    ∃ c : RLCounter, (checkRateLimit stored now).2 = some c ∧ 0 < c.count := by
  simp only [checkRateLimit] at h ⊢
  by_cases h5 : 5 ≤ (if (stored.getD ⟨0, now + 60000⟩).resetTime < now
      then (⟨0, now + 60000⟩ : RLCounter)
      else stored.getD ⟨0, now + 60000⟩).count
  · rw [if_pos h5] at h
    exact absurd h (by simp)
  · rw [if_neg h5]
    exact ⟨_, rfl, Nat.succ_pos _⟩

/-- Reading back a just-saved counter returns it. -/
theorem getRateLimit_save (db : List (Nat × RLCounter)) (userId : Nat) (c : RLCounter) :
    getRateLimit (saveRateLimit db userId c) userId = some c := by
  unfold getRateLimit saveRateLimit
  induction db with
  | nil => simp
  | cons e db ih =>
      by_cases he : (e.1 == userId) = true
      · rw [List.filter_cons, if_neg (by simp [he])]
        exact ih
      · rw [List.filter_cons, if_pos (by simp [he]), List.cons_append,
          List.find?_cons_of_neg _ (by simp [he])]
        exact ih

/-- One request grows the invoice collection exactly when it answered 201. -/
theorem postInvoice_invoices_length (st : ServerState) (userId now : Nat)
    (p : InvoicePayload) (nextId : Nat) (saveFails : Bool) :
    (postInvoice st userId now p nextId saveFails).2.invoices.length =
      st.invoices.length +
        (if isCreated (postInvoice st userId now p nextId saveFails).1 then 1 else 0) := by
  obtain ⟨⟨d, saved⟩, hcr⟩ :
      ∃ pr, checkRateLimit (getRateLimit st.rateLimits userId) now = pr := ⟨_, rfl⟩
  cases d with
  | allow => cases saveFails <;> simp [postInvoice, hcr, isCreated]
  | deny rr => simp [postInvoice, hcr, isCreated]

/-- Every created response is an admitted one. -/
theorem isCreated_isAdmitted (r : PostResult) (h : isCreated r = true) :
    isAdmitted r = true := by
  cases r <;> simp_all [isCreated, isAdmitted]

/-- Counting is monotone along a pointwise implication of predicates. -/
theorem countP_le_of_imp {α : Type} (p q : α → Bool) (l : List α)
    (h : ∀ a, p a = true → q a = true) : l.countP p ≤ l.countP q := by
  induction l with
  | nil => simp
  | cons a l ih =>
      rw [List.countP_cons, List.countP_cons]
      by_cases hp : p a = true
      · simp [hp, h a hp]
        omega
      · simp [hp]
        split <;> omega

/-- Over a whole run, the invoice collection grows by exactly the number of
201 responses. -/
theorem runPosts_invoices_length (reqs : List (Nat × Bool)) :
    ∀ (st : ServerState) (userId : Nat) (p : InvoicePayload) (nextId : Nat),
      (runPosts st userId p nextId reqs).2.invoices.length =
        st.invoices.length + (runPosts st userId p nextId reqs).1.countP isCreated := by
  induction reqs with
  | nil => intro st userId p nextId; simp [runPosts]
  | cons req rest ih =>
      intro st userId p nextId
      obtain ⟨now, sf⟩ := req
      simp only [runPosts]
      rw [ih (postInvoice st userId now p nextId sf).2 userId p (nextId + 1)]
      rw [postInvoice_invoices_length st userId now p nextId sf]
      rw [List.countP_cons]
      split <;> omega

/-- C10.  An admitted request consumes its window slot before the invoice is
created: when the handler's `invoice.save()` then fails, the response is a
500, no invoice was stored, and the incremented counter persisted by the
middleware (with a strictly positive count) is still in place — nothing ever
decrements it.  Consequently, over any sequence of requests, the number of
invoices created never exceeds the number of requests the limiter admitted. -/
theorem admitted_slot_consumed (st : ServerState) (userId now : Nat) (p : InvoicePayload)
    (nextId : Nat)
    (h : (checkRateLimit (getRateLimit st.rateLimits userId) now).1 = RLDecision.allow) :
    (postInvoice st userId now p nextId true).1 = PostResult.serverError ∧
    (postInvoice st userId now p nextId true).2.invoices = st.invoices ∧
    (∃ c : RLCounter,
      (checkRateLimit (getRateLimit st.rateLimits userId) now).2 = some c ∧
      getRateLimit (postInvoice st userId now p nextId true).2.rateLimits userId = some c ∧
      0 < c.count) ∧
    (∀ (reqs : List (Nat × Bool)) (st0 : ServerState) (nid : Nat),
      (runPosts st0 userId p nid reqs).1.countP isCreated ≤
        (runPosts st0 userId p nid reqs).1.countP isAdmitted ∧
      (runPosts st0 userId p nid reqs).2.invoices.length =
        st0.invoices.length + (runPosts st0 userId p nid reqs).1.countP isCreated) := by
  obtain ⟨c, hc, hcpos⟩ := checkRateLimit_allow_saves _ _ h
  obtain ⟨⟨d, saved⟩, hcr⟩ :
      ∃ pr, checkRateLimit (getRateLimit st.rateLimits userId) now = pr := ⟨_, rfl⟩
  rw [hcr] at h hc
  cases d with
  | deny rr => exact absurd h (by simp)
  | allow =>
      simp only at hc
      subst hc
      refine ⟨?_, ?_, ?_, ?_⟩
      · simp [postInvoice, hcr]
      · simp [postInvoice, hcr]
      · refine ⟨c, by rw [hcr], ?_, hcpos⟩
        simp only [postInvoice, hcr]
        exact getRateLimit_save st.rateLimits userId c
      · intro reqs st0 nid
        exact ⟨countP_le_of_imp isCreated isAdmitted _ isCreated_isAdmitted,
               runPosts_invoices_length reqs st0 userId p nid⟩

/-- Witness for C10: a half-full counter, an admitted request whose
`invoice.save()` fails — the 500 leaves the incremented counter behind and no
invoice stored. -/
theorem admitted_slot_consumed_witness :
    (postInvoice ⟨[(1, ⟨2, 60000⟩)], []⟩ 1 30000 samplePayload 7 true).1 =
      PostResult.serverError ∧
    (postInvoice ⟨[(1, ⟨2, 60000⟩)], []⟩ 1 30000 samplePayload 7 true).2.invoices = [] ∧
    (∃ c : RLCounter,
      (checkRateLimit (getRateLimit [(1, ⟨2, 60000⟩)] 1) 30000).2 = some c ∧
      getRateLimit
          (postInvoice ⟨[(1, ⟨2, 60000⟩)], []⟩ 1 30000 samplePayload 7 true).2.rateLimits 1 =
        some c ∧
      0 < c.count) ∧
    (∀ (reqs : List (Nat × Bool)) (st0 : ServerState) (nid : Nat),
      (runPosts st0 1 samplePayload nid reqs).1.countP isCreated ≤
        (runPosts st0 1 samplePayload nid reqs).1.countP isAdmitted ∧
      (runPosts st0 1 samplePayload nid reqs).2.invoices.length =
        st0.invoices.length + (runPosts st0 1 samplePayload nid reqs).1.countP isCreated) :=
  admitted_slot_consumed ⟨[(1, ⟨2, 60000⟩)], []⟩ 1 30000 samplePayload 7 (by decide)

end InvoicePDF
